import Mathlib

/-!
Shallow embedding of the Karunadu bank back office (src/app.py): the data
model (Customer, Account, Transaction, Loan), the admin loan lifecycle
operations, customer registration with its account number generation loop,
admin customer deletion with cascading, and the customer transaction
operations.  Rows are Lean structures, the database is a record of row
lists, and each Flask handler becomes a pure function from a bank state to
a new bank state paired with a result.  Decimal amounts (Python floats in
the source, decimals in the design) are modelled as rationals; timestamps
are abstract naturals supplied by the caller.
-/

namespace Karunadu

/-- A customer row (class Customer, app.py lines 21-38). -/
structure Customer where
  id : Nat
  name : String
  address : String
  contact_info : String
  password_hash : String
deriving Repr, DecidableEq

/-- An account row (class Account, app.py lines 40-53). -/
structure Account where
  id : Nat
  customer_id : Nat
  account_number : String
  account_type : String
  balance : ℚ
deriving Repr, DecidableEq

/-- A transaction row (class Transaction, app.py lines 55-65). -/
structure Transaction where
  id : Nat
  account_id : Nat
  transaction_type : String
  amount : ℚ
  date : Nat
  description : String
  target_account_id : Option Nat
deriving Repr, DecidableEq

/-- A loan row (class Loan, app.py lines 67-79); status is the literal
string stored by the handlers (Pending, Approved or Rejected). -/
structure Loan where
  id : Nat
  customer_id : Nat
  account_id : Nat
  loan_amount : ℚ
  interest_rate : ℚ
  term_months : Nat
  status : String
  application_date : Nat
  approval_date : Option Nat
deriving Repr, DecidableEq

/-- The database state: the four row tables plus autoincrement counters for
the primary keys assigned on insert. -/
structure BankState where
  customers : List Customer
  accounts : List Account
  transactions : List Transaction
  loans : List Loan
  next_customer_id : Nat
  next_account_id : Nat
  next_transaction_id : Nat
deriving Repr, DecidableEq

/-- Outcome of the admin loan handlers (the flash category and message of
app.py lines 330-390 collapsed to a tag). -/
inductive LoanActionResult where
  | notFound
  | approved
  | accountNotFound
  | alreadyApproved
  | rejected
  | notActionable
deriving Repr, DecidableEq

/-- admin_approve_loan (app.py lines 330-369): on a Pending loan, set status
Approved and the decision timestamp, credit the loan amount to the target
account and append one Loan Disbursement transaction, all committed together;
if the account is missing the session is rolled back and nothing changes; a
non-Pending loan is left untouched with an informational flash. -/
def admin_approve_loan (s : BankState) (loan_id : Nat) (now : Nat) :
    BankState × LoanActionResult :=
  match s.loans.find? (fun l => l.id = loan_id) with
  | none => (s, .notFound)
  | some loan =>
    if loan.status = "Pending" then
      match s.accounts.find? (fun a => a.id = loan.account_id) with
      | some account =>
        let new_transaction : Transaction :=
          { id := s.next_transaction_id
            account_id := account.id
            transaction_type := "Loan Disbursement"
            amount := loan.loan_amount
            date := now
            description := "Loan #" ++ Nat.repr loan.id ++ " disbursed"
            target_account_id := none }
        ({ s with
            loans := s.loans.map fun l =>
              if l.id = loan_id then
                { l with status := "Approved", approval_date := some now }
              else l
            accounts := s.accounts.map fun a =>
              if a.id = loan.account_id then
                { a with balance := a.balance + loan.loan_amount }
              else a
            transactions := s.transactions ++ [new_transaction]
            next_transaction_id := s.next_transaction_id + 1 },
          .approved)
      | none => (s, .accountNotFound)
    else if loan.status = "Approved" then
      (s, .alreadyApproved)
    else
      (s, .notActionable)

/-- admin_reject_loan (app.py lines 372-390): on a Pending loan, set status
Rejected and the decision timestamp and commit; no account or transaction is
touched; a non-Pending loan is left untouched with a warning flash. -/
def admin_reject_loan (s : BankState) (loan_id : Nat) (now : Nat) :
    BankState × LoanActionResult :=
  match s.loans.find? (fun l => l.id = loan_id) with
  | none => (s, .notFound)
  | some loan =>
    if loan.status = "Pending" then
      ({ s with
          loans := s.loans.map fun l =>
            if l.id = loan_id then
              { l with status := "Rejected", approval_date := some now }
            else l },
        .rejected)
    else
      (s, .notActionable)

/-- One admin loan lifecycle call: approve or reject a given loan at a given
time. -/
inductive LoanOp where
  | approve (loan_id now : Nat)
  | reject (loan_id now : Nat)
deriving Repr, DecidableEq

/-- Apply one loan lifecycle call, keeping only the state. -/
def applyLoanOp (s : BankState) : LoanOp → BankState
  | .approve lid now => (admin_approve_loan s lid now).1
  | .reject lid now => (admin_reject_loan s lid now).1

/-- Apply a sequence of loan lifecycle calls in order. -/
def applyLoanOps (s : BankState) (ops : List LoanOp) : BankState :=
  ops.foldl applyLoanOp s

/-- The permitted movement of a single loan status across one or more calls:
unchanged, or from Pending to one of the two terminal statuses. -/
def statusStep (a b : String) : Prop :=
  a = b ∨ (a = "Pending" ∧ (b = "Approved" ∨ b = "Rejected"))

instance (a b : String) : Decidable (statusStep a b) := by
  unfold statusStep; infer_instance

/-- Positionwise relation between two loan tables: every row keeps its
primary key and its status moves only as statusStep allows. -/
def stepOK (L M : List Loan) : Prop :=
  ∀ i (hi : i < L.length) (hj : i < M.length),
    (M.get ⟨i, hj⟩).id = (L.get ⟨i, hi⟩).id ∧
    statusStep (L.get ⟨i, hi⟩).status (M.get ⟨i, hj⟩).status

/-- Modelled from the spec: password hashing (werkzeug
generate_password_hash) is an external opaque credential capability per the
non-goals of the spec; modelled as an injective tagging function, no claim
depends on its internals. -/
def generate_password_hash (password : String) : String :=
  "pbkdf2:" ++ password

/-- The registration form fields (app.py lines 411-416). -/
structure RegForm where
  name : String
  address : String
  contact_info : String
  password : String
  confirm_password : String
  account_type : String
deriving Repr, DecidableEq

/-- Outcome of register (app.py lines 404-465). noFreeNumber marks the draw
list running out, the pure image of the while loop never finding a free
account number; commitError marks the store raising on the second (account)
commit, after which the handler rolls back only the uncommitted account. -/
inductive RegResult where
  | missingFields
  | passwordMismatch
  | alreadyExists
  | noFreeNumber
  | commitError
  | success (account_number : String)
deriving Repr, DecidableEq

/-- The account number generation loop inlined in register (app.py lines
439-443): draw str(random.randint(1000000000, 9999999999)) and redraw while
an account with that number exists.  The random draws are passed in
explicitly; an exhausted draw list models the loop never finding a free
number. -/
def account_number_loop (accounts : List Account) (draws : List Nat) :
    Option String :=
  match draws with
  | [] => none
  | d :: rest =>
    if accounts.any (fun a => a.account_number = Nat.repr d) then
      account_number_loop accounts rest
    else
      some (Nat.repr d)

/-- The new customer row built by register (app.py lines 431-432). -/
def reg_customer (s : BankState) (f : RegForm) : Customer :=
  { id := s.next_customer_id
    name := f.name
    address := f.address
    contact_info := f.contact_info
    password_hash := generate_password_hash f.password }

/-- The state after the first commit of register (app.py lines 434-437):
only the new customer row is durable. -/
def commit_customer (s : BankState) (f : RegForm) : BankState :=
  { s with
      customers := s.customers ++ [reg_customer s f]
      next_customer_id := s.next_customer_id + 1 }

/-- register (app.py lines 404-465): validate the form fields, reject a
duplicate contact, then commit the new customer on its own, then generate a
fresh account number and commit the new zero-balance account in a second
commit.  The account_commit_fails flag simulates the store raising during
that second commit, whose except branch rolls back only the account. -/
def register (s : BankState) (f : RegForm) (draws : List Nat)
    (account_commit_fails : Bool) : BankState × RegResult :=
  if f.name = "" ∨ f.contact_info = "" ∨ f.password = "" ∨
      f.confirm_password = "" ∨ f.account_type = "" then
    (s, .missingFields)
  else if f.password ≠ f.confirm_password then
    (s, .passwordMismatch)
  else if s.customers.any (fun c => c.contact_info = f.contact_info) then
    (s, .alreadyExists)
  else
    match account_number_loop (commit_customer s f).accounts draws with
    | none => (commit_customer s f, .noFreeNumber)
    | some num =>
      if account_commit_fails then
        (commit_customer s f, .commitError)
      else
        ({ commit_customer s f with
            accounts := (commit_customer s f).accounts ++
              [{ id := (commit_customer s f).next_account_id
                 customer_id := (reg_customer s f).id
                 account_number := num
                 account_type := f.account_type
                 balance := 0 }]
            next_account_id := (commit_customer s f).next_account_id + 1 },
          .success num)

/-- Outcome of admin_delete_customer. -/
inductive DeleteResult where
  | notFound
  | deleted
deriving Repr, DecidableEq

/-- SQLAlchemy's default handling of the non-cascaded outgoing_transfers
relationship (app.py line 49) when its parent account is deleted: a
surviving transaction whose nullable target_account_id column (app.py line
62) references one of the deleted accounts has that reference set to
NULL. -/
def nullify_target (ids : List Nat) (t : Transaction) : Transaction :=
  match t.target_account_id with
  | some tid =>
    if tid ∈ ids then { t with target_account_id := none } else t
  | none => t

/-- The primary keys of the accounts that the cascade deletes: those owned
by the customer being deleted. -/
def deleted_ids (s : BankState) (customer_id : Nat) : List Nat :=
  (s.accounts.filter fun a => a.customer_id = customer_id).map
    (fun a => a.id)

/-- admin_delete_customer (app.py lines 242-265): delete the customer row;
the cascade declarations on Customer.accounts, Customer.loans (lines 28-29)
and Account.transactions (line 48) delete all accounts owned by the
customer, every transaction whose owning account is one of those, and all
the customer's loans, in the same commit; the non-cascaded
outgoing_transfers relationship (line 49) makes SQLAlchemy null out the
target_account_id of every surviving transaction that referenced a deleted
account. -/
def admin_delete_customer (s : BankState) (customer_id : Nat) :
    BankState × DeleteResult :=
  match s.customers.find? (fun c => c.id = customer_id) with
  | none => (s, .notFound)
  | some _ =>
    ({ s with
        customers := s.customers.filter fun c => ¬ c.id = customer_id
        accounts := s.accounts.filter fun a => ¬ a.customer_id = customer_id
        transactions :=
          (s.transactions.filter fun t =>
            ¬ t.account_id ∈ deleted_ids s customer_id).map
            (nullify_target (deleted_ids s customer_id))
        loans := s.loans.filter fun l => ¬ l.customer_id = customer_id },
      .deleted)

/-- Outcome of the customer transaction operations. -/
inductive TxResult where
  | notFound
  | invalidAmount
  | invalidTarget
  | ok
deriving Repr, DecidableEq

/-- Modelled from the spec: the customer Withdraw route of app.py is not in
the repository snapshot (src/app.py ends at the customer dashboard
decorator); section 4.1 of the spec requires amount strictly positive and at
most the balance, failing with InvalidAmount otherwise with no change, and
on success decrements the balance and appends one Withdrawal transaction. -/
def withdraw (s : BankState) (account_id : Nat) (amount : ℚ) (now : Nat) :
    BankState × TxResult :=
  match s.accounts.find? (fun a => a.id = account_id) with
  | none => (s, .notFound)
  | some account =>
    if amount ≤ 0 ∨ account.balance < amount then
      (s, .invalidAmount)
    else
      let new_transaction : Transaction :=
        { id := s.next_transaction_id
          account_id := account.id
          transaction_type := "Withdrawal"
          amount := amount
          date := now
          description := "Withdrawal"
          target_account_id := none }
      ({ s with
          accounts := s.accounts.map fun a =>
            if a.id = account.id then
              { a with balance := a.balance - amount }
            else a
          transactions := s.transactions ++ [new_transaction]
          next_transaction_id := s.next_transaction_id + 1 },
        .ok)

/-- Modelled from the spec: the customer Transfer route of app.py is not in
the repository snapshot; section 4.1 of the spec resolves the target by
account number, fails with InvalidTarget when it is missing or equal to the
source, fails with InvalidAmount when the amount is non-positive or exceeds
the source balance, and otherwise debits the source, credits the target and
appends a Transfer-Out on the source referencing the target and a
Transfer-In on the target referencing the source, atomically. -/
def transfer (s : BankState) (source_id : Nat) (target_number : String)
    (amount : ℚ) (now : Nat) : BankState × TxResult :=
  match s.accounts.find? (fun a => a.id = source_id) with
  | none => (s, .notFound)
  | some source =>
    match s.accounts.find? (fun a => a.account_number = target_number) with
    | none => (s, .invalidTarget)
    | some target =>
      if target.id = source.id then
        (s, .invalidTarget)
      else if amount ≤ 0 ∨ source.balance < amount then
        (s, .invalidAmount)
      else
        let out_transaction : Transaction :=
          { id := s.next_transaction_id
            account_id := source.id
            transaction_type := "Transfer-Out"
            amount := amount
            date := now
            description := "Transfer to " ++ target_number
            target_account_id := some target.id }
        let in_transaction : Transaction :=
          { id := s.next_transaction_id + 1
            account_id := target.id
            transaction_type := "Transfer-In"
            amount := amount
            date := now
            description := "Transfer from " ++ source.account_number
            target_account_id := some source.id }
        ({ s with
            accounts := s.accounts.map fun a =>
              if a.id = source.id then
                { a with balance := a.balance - amount }
              else if a.id = target.id then
                { a with balance := a.balance + amount }
              else a
            transactions := s.transactions ++ [out_transaction, in_transaction]
            next_transaction_id := s.next_transaction_id + 2 },
          .ok)

/-- A concrete customer used to evaluate the operations. -/
def cust1 : Customer :=
  { id := 1, name := "Asha", address := "A street"
    contact_info := "asha@example.com", password_hash := "h1" }

/-- A second concrete customer. -/
def cust2 : Customer :=
  { id := 2, name := "Ravi", address := "B street"
    contact_info := "ravi@example.com", password_hash := "h2" }

/-- A concrete account owned by cust1. -/
def acct1 : Account :=
  { id := 1, customer_id := 1, account_number := "1234567890"
    account_type := "Checking", balance := 100 }

/-- A concrete account owned by cust2. -/
def acct2 : Account :=
  { id := 2, customer_id := 2, account_number := "2234567890"
    account_type := "Savings", balance := 50 }

/-- A concrete Pending loan of cust1 targeting acct1. -/
def loan1 : Loan :=
  { id := 1, customer_id := 1, account_id := 1, loan_amount := 500
    interest_rate := 5, term_months := 12, status := "Pending"
    application_date := 0, approval_date := none }

/-- A concrete Pending loan whose target account is missing. -/
def loan2 : Loan :=
  { id := 2, customer_id := 1, account_id := 99, loan_amount := 500
    interest_rate := 5, term_months := 12, status := "Pending"
    application_date := 0, approval_date := none }

/-- A concrete transaction on acct1. -/
def tx1 : Transaction :=
  { id := 1, account_id := 1, transaction_type := "Deposit", amount := 100
    date := 0, description := "initial deposit", target_account_id := none }

/-- A concrete transaction on acct2. -/
def tx2 : Transaction :=
  { id := 2, account_id := 2, transaction_type := "Deposit", amount := 50
    date := 0, description := "initial deposit", target_account_id := none }

/-- A concrete bank state with two customers, two accounts, two
transactions and one pending loan. -/
def sampleState : BankState :=
  { customers := [cust1, cust2]
    accounts := [acct1, acct2]
    transactions := [tx1, tx2]
    loans := [loan1]
    next_customer_id := 3
    next_account_id := 3
    next_transaction_id := 3 }

/-- A concrete bank state whose only loan targets a missing account. -/
def orphanState : BankState :=
  { sampleState with loans := [loan2] }

/-- A concrete well formed registration form. -/
def regForm1 : RegForm :=
  { name := "Bea", address := "C street", contact_info := "bea@example.com"
    password := "pw", confirm_password := "pw", account_type := "Checking" }

/-- A second form reusing the contact identifier of regForm1. -/
def regForm2 : RegForm :=
  { name := "Ben", address := "D street", contact_info := "bea@example.com"
    password := "pw2", confirm_password := "pw2", account_type := "Savings" }

/-- A transfer transaction on cust2's account acct2 whose counterpart
reference points at cust1's account acct1. -/
def tx3 : Transaction :=
  { id := 3, account_id := 2, transaction_type := "Transfer-Out"
    amount := 10, date := 0, description := "Transfer to 1234567890"
    target_account_id := some 1 }

/-- A concrete bank state where customer 2 owns a transfer transaction
referencing customer 1's account as counterpart. -/
def counterState : BankState :=
  { customers := [cust1, cust2]
    accounts := [acct1, acct2]
    transactions := [tx1, tx2, tx3]
    loans := [loan1]
    next_customer_id := 3
    next_account_id := 3
    next_transaction_id := 4 }

/-! Helper lemmas about find? on mapped and keyed lists. -/

theorem find?_map_keep {α : Type} (p : α → Bool) (g : α → α)
    (hg : ∀ x, p (g x) = p x) :
    ∀ (l : List α) (a : α), l.find? p = some a →
      (l.map g).find? p = some (g a) := by
  intro l
  induction l with
  | nil => intro a h; simp [List.find?] at h
  | cons x xs ih =>
    intro a h
    by_cases hx : p x = true
    · rw [List.find?_cons_of_pos xs hx] at h
      cases h
      rw [List.map_cons, List.find?_cons_of_pos]
      rw [hg]; exact hx
    · rw [List.find?_cons_of_neg xs hx] at h
      rw [List.map_cons, List.find?_cons_of_neg]
      · exact ih a h
      · rw [hg]; exact hx

theorem find?_of_nodup_keys {α β : Type} [DecidableEq β] (key : α → β) :
    ∀ (l : List α) (a : α), (l.map key).Nodup → a ∈ l →
      l.find? (fun x => key x = key a) = some a := by
  intro l
  induction l with
  | nil => intro a _ ha; simp at ha
  | cons x xs ih =>
    intro a hn ha
    rw [List.map_cons, List.nodup_cons] at hn
    rcases List.mem_cons.mp ha with rfl | hmem
    · exact List.find?_cons_of_pos xs (by simp)
    · have hne : key x ≠ key a := by
        intro he; exact hn.1 (he ▸ List.mem_map_of_mem key hmem)
      rw [List.find?_cons_of_neg xs (by simp [hne])]
      exact ih a hn.2 hmem

/-- C1: ApproveLoan on a Pending loan with amount L and existing target
account X sets the loan status to Approved with the decision timestamp,
increases the balance of X by exactly L, appends exactly one Loan
Disbursement transaction of amount L, and a second ApproveLoan on the same
loan is an informational no-op with no further balance change and no
further transaction. -/
theorem approve_pending_loan_disburses
    (s : BankState) (lid now now2 : Nat) (loan : Loan) (account : Account)
    (hl : s.loans.find? (fun l => l.id = lid) = some loan)
    (hp : loan.status = "Pending")
    (ha : s.accounts.find? (fun a => a.id = loan.account_id) = some account) :
    ∃ s₂ : BankState,
      admin_approve_loan s lid now = (s₂, .approved) ∧
      s₂.loans.find? (fun l => l.id = lid) =
        some { loan with status := "Approved", approval_date := some now } ∧
      s₂.accounts.find? (fun a => a.id = loan.account_id) =
        some { account with balance := account.balance + loan.loan_amount } ∧
      s₂.transactions = s.transactions ++
        [{ id := s.next_transaction_id
           account_id := account.id
           transaction_type := "Loan Disbursement"
           amount := loan.loan_amount
           date := now
           description := "Loan #" ++ Nat.repr loan.id ++ " disbursed"
           target_account_id := none }] ∧
      admin_approve_loan s₂ lid now2 = (s₂, .alreadyApproved) := by
  have hid : loan.id = lid := by simpa using List.find?_some hl
  have haccid : account.id = loan.account_id := by
    simpa using List.find?_some ha
  have hfl2 : (s.loans.map fun l =>
      if l.id = lid then
        { l with status := "Approved", approval_date := some now }
      else l).find? (fun l => l.id = lid) =
      some { loan with status := "Approved", approval_date := some now } := by
    have := find?_map_keep (fun l => l.id = lid)
      (fun l => if l.id = lid then
        { l with status := "Approved", approval_date := some now }
      else l)
      (by intro x; by_cases h : x.id = lid <;> simp [h]) s.loans loan hl
    simpa [hid] using this
  have hfa2 : (s.accounts.map fun a =>
      if a.id = loan.account_id then
        { a with balance := a.balance + loan.loan_amount }
      else a).find? (fun a => a.id = loan.account_id) =
      some { account with balance := account.balance + loan.loan_amount } := by
    have := find?_map_keep (fun a => a.id = loan.account_id)
      (fun a => if a.id = loan.account_id then
        { a with balance := a.balance + loan.loan_amount }
      else a)
      (by intro x; by_cases h : x.id = loan.account_id <;> simp [h])
      s.accounts account ha
    simpa [haccid] using this
  refine ⟨{ s with
      loans := s.loans.map fun l =>
        if l.id = lid then
          { l with status := "Approved", approval_date := some now }
        else l
      accounts := s.accounts.map fun a =>
        if a.id = loan.account_id then
          { a with balance := a.balance + loan.loan_amount }
        else a
      transactions := s.transactions ++
        [{ id := s.next_transaction_id
           account_id := account.id
           transaction_type := "Loan Disbursement"
           amount := loan.loan_amount
           date := now
           description := "Loan #" ++ Nat.repr loan.id ++ " disbursed"
           target_account_id := none }]
      next_transaction_id := s.next_transaction_id + 1 },
    ?_, hfl2, hfa2, rfl, ?_⟩
  · simp only [admin_approve_loan, hl, hp, ha, reduceIte]
  · simp [admin_approve_loan, hfl2]

/-- C2: ApproveLoan on a Pending loan whose target account does not exist
rolls the whole approval back: the returned state is exactly the input
state, so the loan stays Pending, no balance changes and no transaction is
appended. -/
theorem approve_pending_loan_missing_account_rolls_back
    (s : BankState) (lid now : Nat) (loan : Loan)
    (hl : s.loans.find? (fun l => l.id = lid) = some loan)
    (hp : loan.status = "Pending")
    (ha : s.accounts.find? (fun a => a.id = loan.account_id) = none) :
    admin_approve_loan s lid now = (s, .accountNotFound) := by
  simp only [admin_approve_loan, hl, hp, ha, reduceIte]

/-- C6: RejectLoan on a Pending loan sets the status to Rejected with the
decision timestamp and touches no account, transaction or customer; on a
loan not in Pending status both RejectLoan and ApproveLoan leave the state
unchanged and return a not-actionable or informational result. -/
theorem reject_pending_sets_rejected_and_terminal_states_are_noops
    (s : BankState) (lid now : Nat) (loan : Loan)
    (hl : s.loans.find? (fun l => l.id = lid) = some loan) :
    (loan.status = "Pending" →
      ∃ s₂ : BankState,
        admin_reject_loan s lid now = (s₂, .rejected) ∧
        s₂.loans.find? (fun l => l.id = lid) =
          some { loan with status := "Rejected", approval_date := some now } ∧
        s₂.accounts = s.accounts ∧
        s₂.transactions = s.transactions ∧
        s₂.customers = s.customers) ∧
    (loan.status ≠ "Pending" →
      admin_reject_loan s lid now = (s, .notActionable) ∧
      ∃ r : LoanActionResult,
        admin_approve_loan s lid now = (s, r) ∧
        (r = .alreadyApproved ∨ r = .notActionable)) := by
  have hid : loan.id = lid := by simpa using List.find?_some hl
  constructor
  · intro hp
    have hfl2 : (s.loans.map fun l =>
        if l.id = lid then
          { l with status := "Rejected", approval_date := some now }
        else l).find? (fun l => l.id = lid) =
        some { loan with status := "Rejected", approval_date := some now } := by
      have := find?_map_keep (fun l => l.id = lid)
        (fun l => if l.id = lid then
          { l with status := "Rejected", approval_date := some now }
        else l)
        (by intro x; by_cases h : x.id = lid <;> simp [h]) s.loans loan hl
      simpa [hid] using this
    refine ⟨{ s with
        loans := s.loans.map fun l =>
          if l.id = lid then
            { l with status := "Rejected", approval_date := some now }
          else l },
      ?_, hfl2, rfl, rfl, rfl⟩
    simp only [admin_reject_loan, hl, hp, reduceIte]
  · intro hp
    constructor
    · simp only [admin_reject_loan, hl]
      rw [if_neg (by simpa using hp)]
    · by_cases happ : loan.status = "Approved"
      · refine ⟨.alreadyApproved, ?_, Or.inl rfl⟩
        simp only [admin_approve_loan, hl]
        rw [if_neg (by simpa using hp), if_pos (by simpa using happ)]
      · refine ⟨.notActionable, ?_, Or.inr rfl⟩
        simp only [admin_approve_loan, hl]
        rw [if_neg (by simpa using hp), if_neg (by simpa using happ)]

theorem statusStep_refl (a : String) : statusStep a a := Or.inl rfl

theorem statusStep_trans {a b c : String} (h1 : statusStep a b)
    (h2 : statusStep b c) : statusStep a c := by
  rcases h1 with rfl | ⟨ha, hb⟩
  · exact h2
  · rcases h2 with rfl | ⟨hb2, _⟩
    · exact Or.inr ⟨ha, hb⟩
    · rcases hb with rfl | rfl <;> simp_all

theorem map_ids_of_id_pres (loans : List Loan) (g : Loan → Loan)
    (hg : ∀ l, (g l).id = l.id) :
    (loans.map g).map (fun l => l.id) = loans.map (fun l => l.id) := by
  induction loans with
  | nil => rfl
  | cons x xs ih => simp [hg, ih]

theorem applyLoanOp_ids (s : BankState) (op : LoanOp) :
    (applyLoanOp s op).loans.map (fun l => l.id) =
      s.loans.map (fun l => l.id) := by
  cases op with
  | approve lid now =>
    rcases hf : s.loans.find? (fun l => l.id = lid) with _ | loan
    · simp [applyLoanOp, admin_approve_loan, hf]
    · by_cases hp : loan.status = "Pending"
      · rcases ha : s.accounts.find? (fun a => a.id = loan.account_id)
          with _ | account
        · simp [applyLoanOp, admin_approve_loan, hf, hp, ha]
        · simp only [applyLoanOp, admin_approve_loan, hf, hp, ha, reduceIte]
          exact map_ids_of_id_pres _ _
            (by intro l; by_cases h : l.id = lid <;> simp [h])
      · simp only [applyLoanOp, admin_approve_loan, hf]
        rw [if_neg hp]
        split <;> rfl
  | reject lid now =>
    rcases hf : s.loans.find? (fun l => l.id = lid) with _ | loan
    · simp [applyLoanOp, admin_reject_loan, hf]
    · by_cases hp : loan.status = "Pending"
      · simp only [applyLoanOp, admin_reject_loan, hf, hp, reduceIte]
        exact map_ids_of_id_pres _ _
          (by intro l; by_cases h : l.id = lid <;> simp [h])
      · simp only [applyLoanOp, admin_reject_loan, hf]
        rw [if_neg hp]

theorem stepOK_refl (L : List Loan) : stepOK L L := by
  intro i hi hj
  exact ⟨rfl, statusStep_refl _⟩

theorem stepOK_of_eq {L M : List Loan} (h : M = L) : stepOK L M := by
  subst h; exact stepOK_refl _

theorem stepOK_trans {L M N : List Loan} (hlen : M.length = L.length)
    (h1 : stepOK L M) (h2 : stepOK M N) : stepOK L N := by
  intro i hi hj
  have him : i < M.length := by omega
  obtain ⟨hid1, hs1⟩ := h1 i hi him
  obtain ⟨hid2, hs2⟩ := h2 i him hj
  exact ⟨hid2.trans hid1, statusStep_trans hs1 hs2⟩

theorem map_update_stepOK
    (loans : List Loan) (lid now : Nat) (st : String) (loan : Loan)
    (hf : loans.find? (fun l => l.id = lid) = some loan)
    (hp : loan.status = "Pending")
    (hst : st = "Approved" ∨ st = "Rejected")
    (hn : (loans.map (fun l => l.id)).Nodup) :
    stepOK loans (loans.map fun l => if l.id = lid then
      { l with status := st, approval_date := some now } else l) := by
  intro i hi hj
  have hget : (loans.map fun l => if l.id = lid then
      { l with status := st, approval_date := some now } else l).get
      ⟨i, hj⟩ =
      (fun l => if l.id = lid then
        { l with status := st, approval_date := some now } else l)
        (loans.get ⟨i, hi⟩) := by
    simp [List.get_eq_getElem, List.getElem_map]
  by_cases hcase : (loans.get ⟨i, hi⟩).id = lid
  · have hmemi : loans.get ⟨i, hi⟩ ∈ loans := List.get_mem loans i hi
    have hmeml : loan ∈ loans := List.mem_of_find?_eq_some hf
    have hidl : loan.id = lid := by simpa using List.find?_some hf
    have heq : loans.get ⟨i, hi⟩ = loan :=
      List.inj_on_of_nodup_map hn hmemi hmeml (by rw [hcase, hidl])
    rw [hget]
    simp only [hcase, reduceIte]
    refine ⟨trivial, Or.inr ⟨by rw [heq, hp], ?_⟩⟩
    rcases hst with rfl | rfl
    · exact Or.inl rfl
    · exact Or.inr rfl
  · rw [hget]
    simp only [hcase, reduceIte]
    exact ⟨trivial, statusStep_refl _⟩

theorem applyLoanOp_stepOK (s : BankState) (op : LoanOp)
    (hn : (s.loans.map (fun l => l.id)).Nodup) :
    stepOK s.loans (applyLoanOp s op).loans := by
  cases op with
  | approve lid now =>
    rcases hf : s.loans.find? (fun l => l.id = lid) with _ | loan
    · exact stepOK_of_eq (by simp [applyLoanOp, admin_approve_loan, hf])
    · by_cases hp : loan.status = "Pending"
      · rcases ha : s.accounts.find? (fun a => a.id = loan.account_id)
          with _ | account
        · exact stepOK_of_eq
            (by simp [applyLoanOp, admin_approve_loan, hf, hp, ha])
        · have hloans : (applyLoanOp s (.approve lid now)).loans =
              s.loans.map fun l => if l.id = lid then
                { l with status := "Approved", approval_date := some now }
              else l := by
            simp only [applyLoanOp, admin_approve_loan, hf, hp, ha, reduceIte]
          rw [hloans]
          exact map_update_stepOK s.loans lid now "Approved" loan hf hp
            (Or.inl rfl) hn
      · refine stepOK_of_eq ?_
        simp only [applyLoanOp, admin_approve_loan, hf]
        rw [if_neg hp]
        split <;> rfl
  | reject lid now =>
    rcases hf : s.loans.find? (fun l => l.id = lid) with _ | loan
    · exact stepOK_of_eq (by simp [applyLoanOp, admin_reject_loan, hf])
    · by_cases hp : loan.status = "Pending"
      · have hloans : (applyLoanOp s (.reject lid now)).loans =
            s.loans.map fun l => if l.id = lid then
              { l with status := "Rejected", approval_date := some now }
            else l := by
          simp only [applyLoanOp, admin_reject_loan, hf, hp, reduceIte]
        rw [hloans]
        exact map_update_stepOK s.loans lid now "Rejected" loan hf hp
          (Or.inr rfl) hn
      · refine stepOK_of_eq ?_
        simp only [applyLoanOp, admin_reject_loan, hf]
        rw [if_neg hp]

theorem applyLoanOp_loans_length (s : BankState) (op : LoanOp) :
    (applyLoanOp s op).loans.length = s.loans.length := by
  have h := congrArg List.length (applyLoanOp_ids s op)
  simpa using h

/-- C5: loan status transitions are one-way.  Across any sequence of
ApproveLoan and RejectLoan calls, every loan row keeps its identity and its
status either stays what it was or moves from Pending to Approved or to
Rejected; in particular a loan already Approved or Rejected never changes
status again. -/
theorem loan_status_transitions_one_way
    (s : BankState) (ops : List LoanOp)
    (hn : (s.loans.map (fun l => l.id)).Nodup) :
    (applyLoanOps s ops).loans.length = s.loans.length ∧
    stepOK s.loans (applyLoanOps s ops).loans := by
  induction ops generalizing s with
  | nil => exact ⟨rfl, stepOK_refl _⟩
  | cons op ops ih =>
    have hids := applyLoanOp_ids s op
    have hn2 : ((applyLoanOp s op).loans.map (fun l => l.id)).Nodup := by
      rw [hids]; exact hn
    have hlen : (applyLoanOp s op).loans.length = s.loans.length :=
      applyLoanOp_loans_length s op
    obtain ⟨hlen2, hrest⟩ := ih (applyLoanOp s op) hn2
    have hstep := applyLoanOp_stepOK s op hn
    have hseq : applyLoanOps s (op :: ops) =
        applyLoanOps (applyLoanOp s op) ops := rfl
    rw [hseq]
    exact ⟨hlen2.trans hlen, stepOK_trans hlen hstep hrest⟩

/-- C3: Withdraw with an amount w, 0 < w and w at most the balance,
decreases the balance by exactly w and appends one Withdrawal transaction;
with w non-positive or above the balance the state is unchanged and the
InvalidAmount failure is returned. -/
theorem withdraw_valid_and_invalid
    (s : BankState) (aid : Nat) (w : ℚ) (now : Nat) (account : Account)
    (ha : s.accounts.find? (fun a => a.id = aid) = some account) :
    (0 < w ∧ w ≤ account.balance →
      ∃ s₂ : BankState,
        withdraw s aid w now = (s₂, .ok) ∧
        s₂.accounts.find? (fun a => a.id = aid) =
          some { account with balance := account.balance - w } ∧
        s₂.transactions = s.transactions ++
          [{ id := s.next_transaction_id
             account_id := account.id
             transaction_type := "Withdrawal"
             amount := w
             date := now
             description := "Withdrawal"
             target_account_id := none }]) ∧
    (w ≤ 0 ∨ account.balance < w →
      withdraw s aid w now = (s, .invalidAmount)) := by
  have haid : account.id = aid := by simpa using List.find?_some ha
  constructor
  · rintro ⟨hpos, hle⟩
    have hnot : ¬ (w ≤ 0 ∨ account.balance < w) := by
      push_neg
      exact ⟨hpos, hle⟩
    have hfa2 : (s.accounts.map fun a =>
        if a.id = account.id then
          { a with balance := a.balance - w }
        else a).find? (fun a => a.id = aid) =
        some { account with balance := account.balance - w } := by
      have := find?_map_keep (fun a => a.id = aid)
        (fun a => if a.id = account.id then
          { a with balance := a.balance - w }
        else a)
        (by intro x; by_cases h : x.id = account.id <;> simp [h])
        s.accounts account ha
      simpa using this
    refine ⟨{ s with
        accounts := s.accounts.map fun a =>
          if a.id = account.id then
            { a with balance := a.balance - w }
          else a
        transactions := s.transactions ++
          [{ id := s.next_transaction_id
             account_id := account.id
             transaction_type := "Withdrawal"
             amount := w
             date := now
             description := "Withdrawal"
             target_account_id := none }]
        next_transaction_id := s.next_transaction_id + 1 },
      ?_, hfa2, rfl⟩
    simp only [withdraw, ha]
    rw [if_neg hnot]
  · intro hbad
    simp only [withdraw, ha]
    rw [if_pos hbad]

/-- C4: Transfer of amount t between distinct accounts A and B with
0 < t and t at most the balance of A debits A by t, credits B by t,
appends exactly one Transfer-Out on A referencing B and one Transfer-In on
B referencing A, and conserves the sum of the two balances. -/
theorem transfer_moves_money_and_conserves_sum
    (s : BankState) (sid : Nat) (tnum : String) (t : ℚ) (now : Nat)
    (A B : Account)
    (hn : (s.accounts.map (fun a => a.id)).Nodup)
    (hA : s.accounts.find? (fun a => a.id = sid) = some A)
    (hB : s.accounts.find? (fun a => a.account_number = tnum) = some B)
    (hne : B.id ≠ A.id)
    (hpos : 0 < t) (hle : t ≤ A.balance) :
    ∃ s₂ : BankState,
      transfer s sid tnum t now = (s₂, .ok) ∧
      s₂.accounts.find? (fun a => a.id = A.id) =
        some { A with balance := A.balance - t } ∧
      s₂.accounts.find? (fun a => a.id = B.id) =
        some { B with balance := B.balance + t } ∧
      (A.balance - t) + (B.balance + t) = A.balance + B.balance ∧
      s₂.transactions = s.transactions ++
        [{ id := s.next_transaction_id
           account_id := A.id
           transaction_type := "Transfer-Out"
           amount := t
           date := now
           description := "Transfer to " ++ tnum
           target_account_id := some B.id },
         { id := s.next_transaction_id + 1
           account_id := B.id
           transaction_type := "Transfer-In"
           amount := t
           date := now
           description := "Transfer from " ++ A.account_number
           target_account_id := some A.id }] := by
  have haid : A.id = sid := by simpa using List.find?_some hA
  have hnot : ¬ (t ≤ 0 ∨ A.balance < t) := by
    push_neg
    exact ⟨hpos, hle⟩
  have hA2 : s.accounts.find? (fun a => a.id = A.id) = some A := by
    rw [haid]; exact hA
  have hB2 : s.accounts.find? (fun a => a.id = B.id) = some B :=
    find?_of_nodup_keys (fun a => a.id) s.accounts B hn
      (List.mem_of_find?_eq_some hB)
  have hfA : (s.accounts.map fun a =>
      if a.id = A.id then { a with balance := a.balance - t }
      else if a.id = B.id then { a with balance := a.balance + t }
      else a).find? (fun a => a.id = A.id) =
      some { A with balance := A.balance - t } := by
    have := find?_map_keep (fun a => a.id = A.id)
      (fun a => if a.id = A.id then { a with balance := a.balance - t }
        else if a.id = B.id then { a with balance := a.balance + t }
        else a)
      (by intro x
          by_cases h1 : x.id = A.id
          · simp [h1]
          · by_cases h2 : x.id = B.id
            · simp [h1, h2, hne]
            · simp [h1, h2])
      s.accounts A hA2
    simpa using this
  have hfB : (s.accounts.map fun a =>
      if a.id = A.id then { a with balance := a.balance - t }
      else if a.id = B.id then { a with balance := a.balance + t }
      else a).find? (fun a => a.id = B.id) =
      some { B with balance := B.balance + t } := by
    have := find?_map_keep (fun a => a.id = B.id)
      (fun a => if a.id = A.id then { a with balance := a.balance - t }
        else if a.id = B.id then { a with balance := a.balance + t }
        else a)
      (by intro x
          by_cases h1 : x.id = A.id
          · simp [h1]
          · by_cases h2 : x.id = B.id
            · simp [h1, h2, hne]
            · simp [h1, h2])
      s.accounts B hB2
    simpa [hne] using this
  refine ⟨{ s with
      accounts := s.accounts.map fun a =>
        if a.id = A.id then { a with balance := a.balance - t }
        else if a.id = B.id then { a with balance := a.balance + t }
        else a
      transactions := s.transactions ++
        [{ id := s.next_transaction_id
           account_id := A.id
           transaction_type := "Transfer-Out"
           amount := t
           date := now
           description := "Transfer to " ++ tnum
           target_account_id := some B.id },
         { id := s.next_transaction_id + 1
           account_id := B.id
           transaction_type := "Transfer-In"
           amount := t
           date := now
           description := "Transfer from " ++ A.account_number
           target_account_id := some A.id }]
      next_transaction_id := s.next_transaction_id + 2 },
    ?_, hfA, hfB, by ring, rfl⟩
  simp only [transfer, hA, hB]
  rw [if_neg hne, if_neg hnot]

theorem toDigitsCore_eq_digits :
    ∀ (f n : Nat) (l : List Char), n < 10 ^ f → n ≠ 0 →
      Nat.toDigitsCore 10 f n l =
        ((Nat.digits 10 n).map Nat.digitChar).reverse ++ l := by
  intro f
  induction f with
  | zero =>
    intro n l hlt hne
    simp at hlt
    omega
  | succ f ih =>
    intro n l hlt hne
    have hpos : 0 < n := Nat.pos_of_ne_zero hne
    rw [Nat.toDigitsCore]
    by_cases hdiv : n / 10 = 0
    · have hn10 : n < 10 := by omega
      have hmod : n % 10 = n := Nat.mod_eq_of_lt hn10
      have hdig : Nat.digits 10 n = [n] := by
        rw [Nat.digits_def' (by norm_num : (1:ℕ) < 10) hpos, hmod, hdiv]
        simp
      simp [hdiv, hdig, hmod]
    · have hlt2 : n / 10 < 10 ^ f := by
        rw [Nat.div_lt_iff_lt_mul (by norm_num : (0:ℕ) < 10)]
        calc n < 10 ^ (f + 1) := hlt
        _ = 10 ^ f * 10 := by ring
      have hrec := ih (n / 10) (Nat.digitChar (n % 10) :: l) hlt2 hdiv
      rw [if_neg hdiv, hrec]
      rw [Nat.digits_def' (by norm_num : (1:ℕ) < 10) hpos]
      simp

theorem repr_eq_digits (n : Nat) (hne : n ≠ 0) :
    Nat.repr n = (((Nat.digits 10 n).map Nat.digitChar).reverse).asString := by
  have hlt : n < 10 ^ (n + 1) := by
    calc n < 10 ^ n := Nat.lt_pow_self (by norm_num) n
    _ ≤ 10 ^ (n + 1) := Nat.pow_le_pow_right (by norm_num) (Nat.le_succ n)
  rw [Nat.repr, Nat.toDigits, toDigitsCore_eq_digits (n + 1) n [] hlt hne]
  simp

theorem repr_length_of_range (n : Nat)
    (h1 : 10 ^ 9 ≤ n) (h2 : n < 10 ^ 10) :
    (Nat.repr n).length = 10 := by
  have hne : n ≠ 0 := by
    intro h
    rw [h] at h1
    simp at h1
  rw [repr_eq_digits n hne]
  show (((Nat.digits 10 n).map Nat.digitChar).reverse).length = 10
  rw [List.length_reverse, List.length_map,
    Nat.digits_len 10 n (by norm_num) hne,
    Nat.log_eq_of_pow_le_of_lt_pow h1 h2]

theorem digitChar_isDigit : ∀ d, d < 10 → (Nat.digitChar d).isDigit = true := by
  decide

theorem repr_all_digits (n : Nat) (hne : n ≠ 0) :
    (Nat.repr n).toList.all Char.isDigit = true := by
  rw [repr_eq_digits n hne]
  show (((Nat.digits 10 n).map Nat.digitChar).reverse).all Char.isDigit = true
  rw [List.all_eq_true]
  intro c hc
  rw [List.mem_reverse, List.mem_map] at hc
  obtain ⟨d, hd, rfl⟩ := hc
  exact digitChar_isDigit d (Nat.digits_lt_base (by norm_num) hd)

theorem account_number_loop_spec (accounts : List Account) :
    ∀ (draws : List Nat) (num : String),
      (∀ d ∈ draws, 1000000000 ≤ d ∧ d ≤ 9999999999) →
      account_number_loop accounts draws = some num →
      num.length = 10 ∧ num.toList.all Char.isDigit = true ∧
      ∀ a ∈ accounts, a.account_number ≠ num := by
  intro draws
  induction draws with
  | nil =>
    intro num _ h
    simp [account_number_loop] at h
  | cons d rest ih =>
    intro num hr h
    rw [account_number_loop] at h
    by_cases hex : accounts.any (fun a => a.account_number = Nat.repr d) = true
    · rw [if_pos hex] at h
      exact ih num (fun x hx => hr x (List.mem_cons_of_mem d hx)) h
    · rw [if_neg hex] at h
      have hnum : Nat.repr d = num := by
        injection h
      obtain ⟨hd1, hd2⟩ := hr d (List.mem_cons_self d rest)
      have h1 : 10 ^ 9 ≤ d := by
        calc (10:ℕ) ^ 9 = 1000000000 := by norm_num
        _ ≤ d := hd1
      have h2 : d < 10 ^ 10 := by
        calc d ≤ 9999999999 := hd2
        _ < 10 ^ 10 := by norm_num
      have hne0 : d ≠ 0 := by
        intro hz
        rw [hz] at hd1
        omega
      refine ⟨hnum ▸ repr_length_of_range d h1 h2,
        hnum ▸ repr_all_digits d hne0, ?_⟩
      intro a ha heq
      apply hex
      rw [List.any_eq_true]
      exact ⟨a, ha, by simp [heq, hnum]⟩

theorem commit_customer_accounts (s : BankState) (f : RegForm) :
    (commit_customer s f).accounts = s.accounts := rfl

theorem register_success_inversion
    (s s₂ : BankState) (f : RegForm) (draws : List Nat) (b : Bool)
    (num : String)
    (h : register s f draws b = (s₂, .success num)) :
    f.contact_info ≠ "" ∧
    account_number_loop s.accounts draws = some num ∧
    reg_customer s f ∈ s₂.customers ∧
    ∃ a ∈ s₂.accounts, a.account_number = num := by
  unfold register at h
  split at h
  · simp at h
  · split at h
    · simp at h
    · split at h
      · simp at h
      · rename_i hfields hpw hdup
        split at h
        · simp at h
        · rename_i num' hloop
          split at h
          · simp at h
          · rw [Prod.mk.injEq] at h
            obtain ⟨hs, hres⟩ := h
            have hnum : num' = num := by
              injection hres
            subst hnum
            subst hs
            refine ⟨fun hc => hfields (Or.inr (Or.inl hc)), ?_, ?_, ?_⟩
            · rw [← commit_customer_accounts s f]
              exact hloop
            · simp [commit_customer]
            · refine ⟨{ id := (commit_customer s f).next_account_id
                        customer_id := (reg_customer s f).id
                        account_number := num'
                        account_type := f.account_type
                        balance := 0 }, ?_, rfl⟩
              exact List.mem_append_right _ (List.mem_singleton_self _)

/-- C7: a successful registration assigns the new account a number that is
a 10-digit numeric string distinct from every account number already in the
store, the candidate draws being retried until a free one is found. -/
theorem register_assigns_fresh_ten_digit_number
    (s s₂ : BankState) (f : RegForm) (draws : List Nat) (num : String)
    (hdraws : ∀ d ∈ draws, 1000000000 ≤ d ∧ d ≤ 9999999999)
    (hreg : register s f draws false = (s₂, .success num)) :
    num.length = 10 ∧ num.toList.all Char.isDigit = true ∧
    (∀ a ∈ s.accounts, a.account_number ≠ num) ∧
    ∃ a ∈ s₂.accounts, a.account_number = num := by
  obtain ⟨-, hloop, -, hmem⟩ :=
    register_success_inversion s s₂ f draws false num hreg
  obtain ⟨hlen, hdig, hfresh⟩ :=
    account_number_loop_spec s.accounts draws num hdraws hloop
  exact ⟨hlen, hdig, hfresh, hmem⟩

/-- C8: after a registration succeeds for some contact identifier, a second
well formed registration with the same contact identifier fails with the
already-exists failure and returns the store unchanged, creating no second
customer and no second account. -/
theorem register_second_same_contact_already_exists
    (s s₂ : BankState) (f1 f2 : RegForm) (draws1 draws2 : List Nat)
    (b2 : Bool) (num : String)
    (h1 : register s f1 draws1 false = (s₂, .success num))
    (hc : f2.contact_info = f1.contact_info)
    (hname : f2.name ≠ "") (hpw : f2.password ≠ "")
    (hcpw : f2.confirm_password ≠ "") (hat : f2.account_type ≠ "")
    (hmatch : f2.password = f2.confirm_password) :
    register s₂ f2 draws2 b2 = (s₂, .alreadyExists) := by
  obtain ⟨hci, -, hcust, -⟩ :=
    register_success_inversion s s₂ f1 draws1 false num h1
  have hc2 : f2.contact_info ≠ "" := by
    rw [hc]; exact hci
  have hany : s₂.customers.any
      (fun c => c.contact_info = f2.contact_info) = true := by
    rw [List.any_eq_true]
    exact ⟨reg_customer s f1, hcust, by simp [reg_customer, hc]⟩
  unfold register
  rw [if_neg (by simp [hname, hc2, hpw, hcpw, hat]),
    if_neg (by simp [hmatch]), if_pos hany]

/-- C10: registration commits the customer and the account separately, so a
store failure at the account commit leaves the already committed customer
in the store with zero owned accounts. -/
theorem register_commit_split_leaves_customer_without_account
    (s : BankState) (f : RegForm) (draws : List Nat) (num : String)
    (hname : f.name ≠ "") (hci : f.contact_info ≠ "")
    (hpw : f.password ≠ "") (hcpw : f.confirm_password ≠ "")
    (hat : f.account_type ≠ "")
    (hmatch : f.password = f.confirm_password)
    (hdup : ∀ c ∈ s.customers, c.contact_info ≠ f.contact_info)
    (hloop : account_number_loop s.accounts draws = some num)
    (hacct : ∀ a ∈ s.accounts, a.customer_id ≠ s.next_customer_id) :
    register s f draws true = (commit_customer s f, .commitError) ∧
    reg_customer s f ∈ (commit_customer s f).customers ∧
    (commit_customer s f).accounts = s.accounts ∧
    ∀ a ∈ (commit_customer s f).accounts,
      a.customer_id ≠ (reg_customer s f).id := by
  have hanyf : s.customers.any
      (fun c => c.contact_info = f.contact_info) = false := by
    rw [List.any_eq_false]
    intro c hcmem
    simpa using hdup c hcmem
  refine ⟨?_, by simp [commit_customer], rfl, ?_⟩
  · unfold register
    rw [if_neg (by simp [hname, hci, hpw, hcpw, hat]),
      if_neg (by simp [hmatch]), if_neg (by simp [hanyf]),
      commit_customer_accounts, hloop]
    rfl
  · intro a ha hEq
    rw [commit_customer_accounts] at ha
    exact hacct a ha hEq

theorem nullify_target_account_id (ids : List Nat) (t : Transaction) :
    (nullify_target ids t).account_id = t.account_id := by
  rcases h : t.target_account_id with _ | tid
  · simp only [nullify_target, h]
  · simp only [nullify_target, h]
    by_cases hm : tid ∈ ids
    · rw [if_pos hm]
    · rw [if_neg hm]

theorem nullify_target_eq_self (ids : List Nat) (t : Transaction)
    (h : ∀ tid, t.target_account_id = some tid → tid ∉ ids) :
    nullify_target ids t = t := by
  rcases ht : t.target_account_id with _ | tid
  · simp only [nullify_target, ht]
  · simp only [nullify_target, ht]
    rw [if_neg (h tid ht)]

theorem nullify_target_eq_none (ids : List Nat) (t : Transaction)
    (tid : Nat) (ht : t.target_account_id = some tid) (hm : tid ∈ ids) :
    nullify_target ids t = { t with target_account_id := none } := by
  simp only [nullify_target, ht]
  rw [if_pos hm]

theorem mem_deleted_ids (s : BankState) (cid n : Nat) :
    n ∈ deleted_ids s cid ↔
      ∃ a ∈ s.accounts, a.customer_id = cid ∧ a.id = n := by
  simp [deleted_ids, List.mem_map, List.mem_filter, and_assoc]

/-- C9 counterexample: the claim as stated is false of the program.  In
counterState, customer 2 owns the transfer transaction tx3 whose
counterpart reference points at customer 1's account; deleting customer 1
sets that reference to null (the non-cascaded outgoing_transfers
relationship), so the row of the other customer is not carried over
unchanged. -/
theorem delete_customer_unchanged_counterexample :
    ¬ (∀ t ∈ counterState.transactions,
        (∀ a ∈ counterState.accounts, a.customer_id = 1 →
          t.account_id ≠ a.id) →
        t ∈ (admin_delete_customer counterState 1).1.transactions) := by
  decide

/-- C9 (amended): deleting a customer removes, in one operation, the
customer, all accounts it owns, every transaction belonging to one of
those accounts, and all the customer's loans; other customers' rows,
accounts and loans are unchanged, and their transactions are carried over
unchanged except that a surviving transaction whose counterpart reference
points at a deleted account is carried over with that reference set to
null. -/
theorem delete_customer_cascades_nullifies_counterparts
    (s : BankState) (cid : Nat) (c : Customer)
    (hc : s.customers.find? (fun x => x.id = cid) = some c) :
    ∃ s₂ : BankState,
      admin_delete_customer s cid = (s₂, .deleted) ∧
      (∀ x ∈ s₂.customers, x.id ≠ cid) ∧
      (∀ x ∈ s.customers, x.id ≠ cid → x ∈ s₂.customers) ∧
      (∀ a ∈ s₂.accounts, a.customer_id ≠ cid) ∧
      (∀ a ∈ s.accounts, a.customer_id ≠ cid → a ∈ s₂.accounts) ∧
      (∀ t ∈ s₂.transactions, ∀ a ∈ s.accounts,
        a.customer_id = cid → t.account_id ≠ a.id) ∧
      (∀ t ∈ s.transactions,
        (∀ a ∈ s.accounts, a.customer_id = cid → t.account_id ≠ a.id) →
        (∀ tid, t.target_account_id = some tid →
          ∀ a ∈ s.accounts, a.customer_id = cid → a.id ≠ tid) →
        t ∈ s₂.transactions) ∧
      (∀ t ∈ s.transactions,
        (∀ a ∈ s.accounts, a.customer_id = cid → t.account_id ≠ a.id) →
        ∀ tid, t.target_account_id = some tid →
        (∃ a ∈ s.accounts, a.customer_id = cid ∧ a.id = tid) →
        { t with target_account_id := none } ∈ s₂.transactions) ∧
      (∀ l ∈ s₂.loans, l.customer_id ≠ cid) ∧
      (∀ l ∈ s.loans, l.customer_id ≠ cid → l ∈ s₂.loans) := by
  refine ⟨{ s with
      customers := s.customers.filter fun x => ¬ x.id = cid
      accounts := s.accounts.filter fun a => ¬ a.customer_id = cid
      transactions :=
        (s.transactions.filter fun t =>
          ¬ t.account_id ∈ deleted_ids s cid).map
          (nullify_target (deleted_ids s cid))
      loans := s.loans.filter fun l => ¬ l.customer_id = cid },
    ?_, ?_, ?_, ?_, ?_, ?_, ?_, ?_, ?_, ?_⟩
  · simp only [admin_delete_customer, hc]
  · intro x hx
    have h2 := (List.mem_filter.mp hx).2
    simpa using h2
  · intro x hx hne
    exact List.mem_filter.mpr ⟨hx, by simpa using hne⟩
  · intro a ha
    have h2 := (List.mem_filter.mp ha).2
    simpa using h2
  · intro a ha hne
    exact List.mem_filter.mpr ⟨ha, by simpa using hne⟩
  · intro t ht a ha hcust hEq
    rw [List.mem_map] at ht
    obtain ⟨u, hu, hfu⟩ := ht
    have hacc : t.account_id = u.account_id := by
      rw [← hfu]
      exact nullify_target_account_id _ u
    have h2 := (List.mem_filter.mp hu).2
    rw [decide_eq_true_eq] at h2
    apply h2
    rw [mem_deleted_ids]
    exact ⟨a, ha, hcust, hEq.symm.trans hacc⟩
  · intro t ht hsurv hnoref
    have hnotin : ¬ t.account_id ∈ deleted_ids s cid := by
      rw [mem_deleted_ids]
      rintro ⟨a, ha, hcust, haid⟩
      exact hsurv a ha hcust haid.symm
    have hmemf : t ∈ s.transactions.filter fun t =>
        ¬ t.account_id ∈ deleted_ids s cid :=
      List.mem_filter.mpr ⟨ht, by simpa using hnotin⟩
    have hcond : ∀ tid, t.target_account_id = some tid →
        tid ∉ deleted_ids s cid := by
      intro tid htid
      rw [mem_deleted_ids]
      rintro ⟨a, ha, hcust, haid⟩
      exact hnoref tid htid a ha hcust haid
    have hmem := List.mem_map_of_mem (nullify_target (deleted_ids s cid))
      hmemf
    rw [nullify_target_eq_self _ t hcond] at hmem
    exact hmem
  · intro t ht hsurv tid htid hex
    have hnotin : ¬ t.account_id ∈ deleted_ids s cid := by
      rw [mem_deleted_ids]
      rintro ⟨a, ha, hcust, haid⟩
      exact hsurv a ha hcust haid.symm
    have hmemf : t ∈ s.transactions.filter fun t =>
        ¬ t.account_id ∈ deleted_ids s cid :=
      List.mem_filter.mpr ⟨ht, by simpa using hnotin⟩
    have htin : tid ∈ deleted_ids s cid := by
      rw [mem_deleted_ids]
      obtain ⟨a, ha, hcust, haid⟩ := hex
      exact ⟨a, ha, hcust, haid⟩
    have hmem := List.mem_map_of_mem (nullify_target (deleted_ids s cid))
      hmemf
    rw [nullify_target_eq_none _ t tid htid htin] at hmem
    exact hmem
  · intro l hl
    have h2 := (List.mem_filter.mp hl).2
    simpa using h2
  · intro l hl hne
    exact List.mem_filter.mpr ⟨hl, by simpa using hne⟩

theorem approve_pending_loan_disburses_witness :
    (sampleState.loans.find? (fun l => l.id = 1) = some loan1) ∧
    (∃ s₂ : BankState,
      admin_approve_loan sampleState 1 7 = (s₂, .approved) ∧
      s₂.loans.find? (fun l => l.id = 1) =
        some { loan1 with status := "Approved", approval_date := some 7 } ∧
      s₂.accounts.find? (fun a => a.id = loan1.account_id) =
        some { acct1 with balance := acct1.balance + loan1.loan_amount } ∧
      s₂.transactions = sampleState.transactions ++
        [{ id := sampleState.next_transaction_id
           account_id := acct1.id
           transaction_type := "Loan Disbursement"
           amount := loan1.loan_amount
           date := 7
           description := "Loan #" ++ Nat.repr loan1.id ++ " disbursed"
           target_account_id := none }] ∧
      admin_approve_loan s₂ 1 8 = (s₂, .alreadyApproved)) :=
  ⟨by decide, approve_pending_loan_disburses sampleState 1 7 8 loan1 acct1
    (by decide) (by decide) (by decide)⟩

theorem approve_pending_loan_missing_account_rolls_back_witness :
    (orphanState.loans.find? (fun l => l.id = 2) = some loan2) ∧
    admin_approve_loan orphanState 2 7 = (orphanState, .accountNotFound) :=
  ⟨by decide, approve_pending_loan_missing_account_rolls_back orphanState 2 7
    loan2 (by decide) (by decide) (by decide)⟩

theorem withdraw_valid_and_invalid_witness :
    (sampleState.accounts.find? (fun a => a.id = 1) = some acct1) ∧
    ((0 < (40:ℚ) ∧ (40:ℚ) ≤ acct1.balance →
      ∃ s₂ : BankState,
        withdraw sampleState 1 40 9 = (s₂, .ok) ∧
        s₂.accounts.find? (fun a => a.id = 1) =
          some { acct1 with balance := acct1.balance - 40 } ∧
        s₂.transactions = sampleState.transactions ++
          [{ id := sampleState.next_transaction_id
             account_id := acct1.id
             transaction_type := "Withdrawal"
             amount := 40
             date := 9
             description := "Withdrawal"
             target_account_id := none }]) ∧
    ((40:ℚ) ≤ 0 ∨ acct1.balance < 40 →
      withdraw sampleState 1 40 9 = (sampleState, .invalidAmount))) :=
  ⟨by decide, withdraw_valid_and_invalid sampleState 1 40 9 acct1 (by decide)⟩

theorem transfer_moves_money_and_conserves_sum_witness :
    ((sampleState.accounts.map (fun a => a.id)).Nodup) ∧
    (∃ s₂ : BankState,
      transfer sampleState 1 "2234567890" 30 9 = (s₂, .ok) ∧
      s₂.accounts.find? (fun a => a.id = acct1.id) =
        some { acct1 with balance := acct1.balance - 30 } ∧
      s₂.accounts.find? (fun a => a.id = acct2.id) =
        some { acct2 with balance := acct2.balance + 30 } ∧
      (acct1.balance - 30) + (acct2.balance + 30) =
        acct1.balance + acct2.balance ∧
      s₂.transactions = sampleState.transactions ++
        [{ id := sampleState.next_transaction_id
           account_id := acct1.id
           transaction_type := "Transfer-Out"
           amount := 30
           date := 9
           description := "Transfer to " ++ "2234567890"
           target_account_id := some acct2.id },
         { id := sampleState.next_transaction_id + 1
           account_id := acct2.id
           transaction_type := "Transfer-In"
           amount := 30
           date := 9
           description := "Transfer from " ++ acct1.account_number
           target_account_id := some acct1.id }]) :=
  ⟨by decide, transfer_moves_money_and_conserves_sum sampleState 1
    "2234567890" 30 9 acct1 acct2 (by decide) (by decide) (by decide)
    (by decide) (by decide) (by decide)⟩

theorem loan_status_transitions_one_way_witness :
    ((sampleState.loans.map (fun l => l.id)).Nodup) ∧
    ((applyLoanOps sampleState
        [LoanOp.approve 1 7, LoanOp.reject 1 8]).loans.length =
      sampleState.loans.length ∧
    stepOK sampleState.loans
      (applyLoanOps sampleState
        [LoanOp.approve 1 7, LoanOp.reject 1 8]).loans) :=
  ⟨by decide, loan_status_transitions_one_way sampleState
    [LoanOp.approve 1 7, LoanOp.reject 1 8] (by decide)⟩

theorem reject_pending_sets_rejected_and_terminal_states_are_noops_witness :
    (sampleState.loans.find? (fun l => l.id = 1) = some loan1) ∧
    ((loan1.status = "Pending" →
      ∃ s₂ : BankState,
        admin_reject_loan sampleState 1 7 = (s₂, .rejected) ∧
        s₂.loans.find? (fun l => l.id = 1) =
          some { loan1 with status := "Rejected", approval_date := some 7 } ∧
        s₂.accounts = sampleState.accounts ∧
        s₂.transactions = sampleState.transactions ∧
        s₂.customers = sampleState.customers) ∧
    (loan1.status ≠ "Pending" →
      admin_reject_loan sampleState 1 7 = (sampleState, .notActionable) ∧
      ∃ r : LoanActionResult,
        admin_approve_loan sampleState 1 7 = (sampleState, r) ∧
        (r = .alreadyApproved ∨ r = .notActionable))) :=
  ⟨by decide, reject_pending_sets_rejected_and_terminal_states_are_noops
    sampleState 1 7 loan1 (by decide)⟩

theorem register_assigns_fresh_ten_digit_number_witness :
    (∀ d ∈ [1234567890, 5555555555], 1000000000 ≤ d ∧ d ≤ 9999999999) ∧
    (("5555555555" : String).length = 10 ∧
    ("5555555555" : String).toList.all Char.isDigit = true ∧
    (∀ a ∈ sampleState.accounts, a.account_number ≠ "5555555555") ∧
    ∃ a ∈ (register sampleState regForm1 [1234567890, 5555555555]
      false).1.accounts, a.account_number = "5555555555") :=
  ⟨by decide, register_assigns_fresh_ten_digit_number sampleState
    (register sampleState regForm1 [1234567890, 5555555555] false).1
    regForm1 [1234567890, 5555555555] "5555555555" (by decide) (by decide)⟩

theorem register_second_same_contact_already_exists_witness :
    (register sampleState regForm1 [5555555555] false =
      ((register sampleState regForm1 [5555555555] false).1,
        RegResult.success "5555555555")) ∧
    register (register sampleState regForm1 [5555555555] false).1 regForm2
      [6666666666] false =
      ((register sampleState regForm1 [5555555555] false).1,
        RegResult.alreadyExists) :=
  ⟨by decide, register_second_same_contact_already_exists sampleState
    (register sampleState regForm1 [5555555555] false).1 regForm1 regForm2
    [5555555555] [6666666666] false "5555555555" (by decide) (by decide)
    (by decide) (by decide) (by decide) (by decide) (by decide)⟩

theorem delete_customer_cascades_nullifies_counterparts_witness :
    (counterState.customers.find? (fun x => x.id = 1) = some cust1) ∧
    (∃ s₂ : BankState,
      admin_delete_customer counterState 1 = (s₂, .deleted) ∧
      (∀ x ∈ s₂.customers, x.id ≠ 1) ∧
      (∀ x ∈ counterState.customers, x.id ≠ 1 → x ∈ s₂.customers) ∧
      (∀ a ∈ s₂.accounts, a.customer_id ≠ 1) ∧
      (∀ a ∈ counterState.accounts, a.customer_id ≠ 1 → a ∈ s₂.accounts) ∧
      (∀ t ∈ s₂.transactions, ∀ a ∈ counterState.accounts,
        a.customer_id = 1 → t.account_id ≠ a.id) ∧
      (∀ t ∈ counterState.transactions,
        (∀ a ∈ counterState.accounts, a.customer_id = 1 →
          t.account_id ≠ a.id) →
        (∀ tid, t.target_account_id = some tid →
          ∀ a ∈ counterState.accounts, a.customer_id = 1 →
            a.id ≠ tid) →
        t ∈ s₂.transactions) ∧
      (∀ t ∈ counterState.transactions,
        (∀ a ∈ counterState.accounts, a.customer_id = 1 →
          t.account_id ≠ a.id) →
        ∀ tid, t.target_account_id = some tid →
        (∃ a ∈ counterState.accounts, a.customer_id = 1 ∧ a.id = tid) →
        { t with target_account_id := none } ∈ s₂.transactions) ∧
      (∀ l ∈ s₂.loans, l.customer_id ≠ 1) ∧
      (∀ l ∈ counterState.loans, l.customer_id ≠ 1 → l ∈ s₂.loans)) :=
  ⟨by decide, delete_customer_cascades_nullifies_counterparts counterState 1
    cust1 (by decide)⟩

theorem register_commit_split_leaves_customer_without_account_witness :
    (account_number_loop sampleState.accounts [5555555555] =
      some "5555555555") ∧
    (register sampleState regForm1 [5555555555] true =
      (commit_customer sampleState regForm1, .commitError) ∧
    reg_customer sampleState regForm1 ∈
      (commit_customer sampleState regForm1).customers ∧
    (commit_customer sampleState regForm1).accounts = sampleState.accounts ∧
    ∀ a ∈ (commit_customer sampleState regForm1).accounts,
      a.customer_id ≠ (reg_customer sampleState regForm1).id) :=
  ⟨by decide, register_commit_split_leaves_customer_without_account
    sampleState regForm1 [5555555555] "5555555555" (by decide) (by decide)
    (by decide) (by decide) (by decide) (by decide) (by decide) (by decide)
    (by decide)⟩

end Karunadu
